import Mathlib

/-!
Verification of the S2Mosaic specification against `src/s2mosaic/coordinator.py`.

The repository ships only the coordinator (`mosaic` in `coordinator.py`); the
helpers it drives (`validate_inputs`, `sort_items`, `download_bands_pool`, the
cloud masker and the compositor) are imported from `s2mosaic.helpers`, which is
not in the source tree.  Those components are therefore modelled from the
specification (spec sections 4.2, 4.4, 4.5, 6), as marked on each definition;
the coordinator itself is embedded directly from the Python source.
-/

/-! ## Compositor data model -/

/-- Modelled from the spec: a masked scene stack, flattened over pixel/band
positions.  Each position carries the band value and the validity bit obtained
by combining the scene's own no-data indicator with its CloudMask (spec section 3:
a pixel is valid for aggregation only if both agree). -/
abbrev Scene : Type := List (Int × Bool)

/-- The nodata sentinel written into output pixels with no contributing scene
(`nodata_value = 0` in `coordinator.py`). -/
def nodataQ : ℚ := 0

/-- Modelled from the spec: the contribution of scene `s` at position `j` —
`some` value when the mask marks the position valid, `none` otherwise. -/
def sceneOptAt (s : Scene) (j : Nat) : Option Int :=
  if (s.getD j (0, false)).2 then some (s.getD j (0, false)).1 else none

/-- Modelled from the spec: the ordered list of values contributed at position
`j` by the scenes whose mask marks `j` valid. -/
def contributions (scenes : List Scene) (j : Nat) : List Int :=
  scenes.filterMap (fun s => sceneOptAt s j)

/-- Modelled from the spec: the first scene value (in processing order) whose
mask marks position `j` valid. -/
def firstValidAt (scenes : List Scene) (j : Nat) : Option Int :=
  scenes.findSome? (fun s => sceneOptAt s j)

/-! ### `first` compositing -/

/-- Modelled from the spec: fold one scene into the `first`-method accumulator;
a position not yet finalized (`none`) takes the scene's value where the mask is
valid, a finalized position is never overwritten. -/
def updateFirst (acc : List (Option Int)) (s : Scene) : List (Option Int) :=
  List.zipWith (fun a p => a <|> (if p.2 then some p.1 else none)) acc s

/-- Modelled from the spec: finalize the `first` accumulator — positions never
finalized receive the nodata sentinel. -/
def finalizeFirst (acc : List (Option Int)) : List ℚ :=
  acc.map (fun o => ((o.getD 0 : Int) : ℚ))

/-- Modelled from the spec: `first` compositing over every scene, with the
early-exit check disabled. -/
def compositeFirstPlain (w : Nat) (scenes : List Scene) : List ℚ :=
  finalizeFirst (scenes.foldl updateFirst (List.replicate w none))

/-- Modelled from the spec: fraction of still-unfinalized positions in the
`first` accumulator (the remaining-invalid fraction of spec section 4.5). -/
def invalidFracFirst (acc : List (Option Int)) : ℚ :=
  if acc.length = 0 then 0 else ((acc.countP (fun o => o.isNone)) : ℚ) / (acc.length : ℚ)

/-- Modelled from the spec: the `first` fold with the early-exit check — after
folding each scene the remaining-invalid fraction is compared with the
threshold and the remaining scenes are skipped once it is at or below it. -/
def goFirst (thr : Option ℚ) : List (Option Int) → List Scene → List (Option Int)
  | acc, [] => acc
  | acc, s :: rest =>
    let acc2 := updateFirst acc s
    match thr with
    | some t => if invalidFracFirst acc2 ≤ t then acc2 else goFirst thr acc2 rest
    | none => goFirst thr acc2 rest

/-- Modelled from the spec: `first` compositing with the early-exit check. -/
def compositeFirstEE (thr : Option ℚ) (w : Nat) (scenes : List Scene) : List ℚ :=
  finalizeFirst (goFirst thr (List.replicate w none) scenes)

/-! ### `mean` compositing -/

/-- Modelled from the spec: fold one scene into the `mean` accumulator of
per-position running (sum, count); positions the mask marks invalid contribute
nothing. -/
def updateMean (acc : List (Int × Nat)) (s : Scene) : List (Int × Nat) :=
  List.zipWith (fun a p => if p.2 then (a.1 + p.1, a.2 + 1) else a) acc s

/-- Modelled from the spec: finalize the `mean` accumulator — a position with
zero contributing scenes receives the nodata sentinel, otherwise sum / count. -/
def finalizeMean (acc : List (Int × Nat)) : List ℚ :=
  acc.map (fun a => if a.2 = 0 then nodataQ else (a.1 : ℚ) / (a.2 : ℚ))

/-- Modelled from the spec: `mean` compositing over every scene, with the
early-exit check disabled. -/
def compositeMeanPlain (w : Nat) (scenes : List Scene) : List ℚ :=
  finalizeMean (scenes.foldl updateMean (List.replicate w (0, 0)))

/-- Modelled from the spec: fraction of positions with zero contributors so far
in the `mean` accumulator. -/
def invalidFracMean (acc : List (Int × Nat)) : ℚ :=
  if acc.length = 0 then 0 else ((acc.countP (fun a => a.2 == 0)) : ℚ) / (acc.length : ℚ)

/-- Modelled from the spec: the `mean` fold with the early-exit check. -/
def goMean (thr : Option ℚ) : List (Int × Nat) → List Scene → List (Int × Nat)
  | acc, [] => acc
  | acc, s :: rest =>
    let acc2 := updateMean acc s
    match thr with
    | some t => if invalidFracMean acc2 ≤ t then acc2 else goMean thr acc2 rest
    | none => goMean thr acc2 rest

/-- Modelled from the spec: `mean` compositing with the early-exit check. -/
def compositeMeanEE (thr : Option ℚ) (w : Nat) (scenes : List Scene) : List ℚ :=
  finalizeMean (goMean thr (List.replicate w (0, 0)) scenes)

/-! ## CloudMasker batching -/

/-- Modelled from the spec: accumulator-based batching — `acc` holds the
current batch in reverse and `k` its remaining capacity. -/
def chunkAux {α : Type} (n : Nat) : List α → List α → Nat → List (List α)
  | [], acc, _ => if acc.isEmpty then [] else [acc.reverse]
  | x :: xs, acc, 0 => acc.reverse :: chunkAux n xs [x] (n - 1)
  | x :: xs, acc, k + 1 => chunkAux n xs (x :: acc) k

/-- Modelled from the spec: partition a list into consecutive batches of
`n` items (the CloudMasker partitions the ordered fetched stacks into
fixed-size batches, spec section 4.4). -/
def chunkList {α : Type} (n : Nat) (l : List α) : List (List α) :=
  chunkAux n l [] n

/-- Modelled from the spec: run the per-stack cloud detector `f` batch by
batch over the fixed-size partition and concatenate the resulting masks in
input order. -/
def maskBatched (f : Scene → List Bool) (n : Nat) (scenes : List Scene) : List (List Bool) :=
  ((chunkList n scenes).map (fun batch => batch.map f)).flatten

/-! ## SceneSorter -/

/-- Modelled from the spec: an annotated scene record — stable identifier,
acquisition timestamp and the expected usable-pixel fraction computed by the
`valid_data` pre-check (spec sections 3 and 4.2). -/
structure SceneItem where
  sceneId : String
  acquisition : Int
  validFraction : ℚ
  deriving DecidableEq, Repr

/-- The supported sort policies (spec section 6). -/
def sortPolicies : List String := ["valid_data", "oldest", "newest"]

/-- Modelled from the spec: the primary sort key of a policy, embedded into ℚ
so that smaller key means earlier in the processing order: `valid_data` orders
by descending usable fraction, `oldest` by ascending acquisition date,
`newest` by descending acquisition date. -/
def primaryKey (policy : String) (s : SceneItem) : ℚ :=
  if policy = "valid_data" then -s.validFraction
  else if policy = "oldest" then (s.acquisition : ℚ)
  else if policy = "newest" then -(s.acquisition : ℚ)
  else 0

/-- Modelled from the spec: the scene comparator — primary key of the policy,
with ties broken by the scene identifier (spec section 4.2). -/
def sceneLE (policy : String) (a b : SceneItem) : Bool :=
  decide (primaryKey policy a < primaryKey policy b)
    || (decide (primaryKey policy a = primaryKey policy b) && decide (a.sceneId ≤ b.sceneId))

/-- Modelled from the spec: `sort_items` — order the annotated scenes by the
policy's comparator. -/
def sort_items (policy : String) (items : List SceneItem) : List SceneItem :=
  items.mergeSort (sceneLE policy)

/-! ## Coordinator (embedded from `src/s2mosaic/coordinator.py`) -/

/-- Modelled from the spec: `validate_inputs` from `s2mosaic.helpers` is not in
the source tree; per spec sections 6 and 7 it accepts sort policy in
\x7bvalid_data, oldest, newest\x7d, mosaic method in \x7bmean, first\x7d, a non-empty band
list that does not mix the visual composite band with other bands, and a
no-data threshold in [0, 1] or disabled. -/
def validate_inputs (sort_method mosaic_method : String) (no_data_threshold : Option ℚ)
    (required_bands : List String) : Bool :=
  decide (sort_method ∈ sortPolicies)
    && decide (mosaic_method ∈ ["mean", "first"])
    && decide (required_bands ≠ [])
    && (decide ("visual" ∉ required_bands) || decide (required_bands = ["visual"]))
    && (match no_data_threshold with
        | none => true
        | some t => decide (0 ≤ t) && decide (t ≤ 1))

/-- The configuration surface of `mosaic` in `coordinator.py` that the claims
depend on.  `output_dir` records whether an output directory was supplied. -/
structure MosaicConfig where
  grid_id : String
  sort_method : String
  mosaic_method : String
  required_bands : List String
  no_data_threshold : Option ℚ
  overwrite : Bool
  output_dir : Bool
  ocm_batch_size : Nat

/-- The external collaborators of the coordinator: whether the computed export
path already exists, the catalog search result, and the fetched+masked stack
of each scene together with the flattened output size. -/
structure Env where
  export_path_exists : Bool
  items : List SceneItem
  width : Nat
  stackOf : SceneItem → Scene

/-- Pipeline work stages recorded by the coordinator model. -/
inductive PipelineStep where
  | search
  | fetch
  | mask
  | composite
  | export
  deriving DecidableEq, Repr

/-- Terminal pipeline failures raised by `mosaic` (spec section 7). -/
inductive MosaicError where
  | configuration
  | noCandidates
  deriving DecidableEq, Repr

/-- Successful outcomes of `mosaic`: the early return of an existing export
path, a written file (with the band labels and nodata sentinel passed to
`export_tif`), or the in-memory array. -/
inductive MosaicResult where
  | existingPath
  | exportedFile (bands : List String) (nodata : Option Int) (arr : List ℚ)
  | inMemory (arr : List ℚ)
  deriving DecidableEq, Repr

/-- Band labels passed to `export_tif` (`coordinator.py` lines 166-177):
`required_bands` is replaced by Red, Green, Blue when it contains `visual`. -/
def exportBands (required_bands : List String) : List String :=
  if "visual" ∈ required_bands then ["Red", "Green", "Blue"] else required_bands

/-- Nodata sentinel passed to `export_tif` (`coordinator.py` lines 166-178):
disabled when `required_bands` contains `visual`, otherwise the integer 0. -/
def exportNodata (required_bands : List String) : Option Int :=
  if "visual" ∈ required_bands then none else some 0

/-- The compositing fold dispatched by `download_bands_pool` on the selected
mosaic method, with the requested no-data threshold. -/
def compositeRun (method : String) (thr : Option ℚ) (w : Nat) (scenes : List Scene) : List ℚ :=
  if method = "mean" then compositeMeanEE thr w scenes else compositeFirstEE thr w scenes

/-- The coordinator `mosaic` of `coordinator.py`, embedded step by step:
validate inputs; with an output directory, return the existing export path
when it exists and `overwrite` is false; search the catalog and fail on an
empty result; sort the scenes; fetch, mask and composite them; relabel bands
and pick the nodata sentinel for export.  The second component records which
pipeline stages were performed. -/
def mosaic (cfg : MosaicConfig) (env : Env) :
    Except MosaicError MosaicResult × List PipelineStep :=
  if validate_inputs cfg.sort_method cfg.mosaic_method cfg.no_data_threshold cfg.required_bands then
    if cfg.output_dir && env.export_path_exists && !cfg.overwrite then
      (.ok .existingPath, [])
    else if env.items.isEmpty then
      (.error .noCandidates, [.search])
    else
      let sorted := sort_items cfg.sort_method env.items
      let arr := compositeRun cfg.mosaic_method cfg.no_data_threshold env.width
        (sorted.map env.stackOf)
      if cfg.output_dir then
        (.ok (.exportedFile (exportBands cfg.required_bands) (exportNodata cfg.required_bands) arr),
         [.search, .fetch, .mask, .composite, .export])
      else
        (.ok (.inMemory arr), [.search, .fetch, .mask, .composite])
  else
    (.error .configuration, [])

/-! ## Concrete inputs used by witnesses and counterexamples -/

/-- A configuration with an unsupported sort method. -/
def cfgInvalid : MosaicConfig :=
  ⟨"50HMH", "cloudiest", "mean", ["B04"], none, true, false, 1⟩

/-- A valid configuration returning the mosaic in memory. -/
def cfgInMemory : MosaicConfig :=
  ⟨"50HMH", "valid_data", "mean", ["B04"], some 0, true, false, 1⟩

/-- A valid configuration with an output directory, no overwrite. -/
def cfgNoOverwrite : MosaicConfig :=
  ⟨"50HMH", "valid_data", "mean", ["B04", "B03"], none, false, true, 1⟩

/-- An invalid configuration with an output directory, no overwrite. -/
def cfgBadNoOverwrite : MosaicConfig :=
  ⟨"50HMH", "cloudiest", "mean", ["B04"], none, false, true, 1⟩

/-- A valid configuration requesting the visual composite band, with export. -/
def cfgVisual : MosaicConfig :=
  ⟨"50HMH", "oldest", "first", ["visual"], none, true, true, 1⟩

/-- A valid configuration requesting reflectance bands, with export. -/
def cfgBands : MosaicConfig :=
  ⟨"50HMH", "newest", "first", ["B08"], none, true, true, 2⟩

/-- A catalog scene used by concrete runs. -/
def itemS1 : SceneItem := ⟨"S1", 1, 1⟩

/-- A second catalog scene used by concrete runs, older than `itemS1`. -/
def itemS0 : SceneItem := ⟨"S0", 0, 0⟩

/-- An environment whose catalog search returns no scenes. -/
def envNoScenes : Env := ⟨false, [], 0, fun _ => []⟩

/-- An environment whose computed export path already exists. -/
def envPathExists : Env := ⟨true, [], 0, fun _ => []⟩

/-- An environment with one scene whose single position is valid with value 5. -/
def envOneScene : Env := ⟨false, [itemS1], 1, fun _ => [(5, true)]⟩

/-- An environment with one scene whose single position is valid with value 7. -/
def envOtherScene : Env := ⟨false, [itemS1], 1, fun _ => [(7, true)]⟩

/-! ## Batching lemmas (claim C4) -/

lemma chunkAux_flatten {α : Type} (n : Nat) :
    ∀ (l acc : List α) (k : Nat), (chunkAux n l acc k).flatten = acc.reverse ++ l := by
  intro l
  induction l with
  | nil =>
    intro acc k
    by_cases h : acc.isEmpty
    · simp [chunkAux, h, List.isEmpty_iff.mp h]
    · simp [chunkAux, h]
  | cons x xs ih =>
    intro acc k
    cases k with
    | zero => simp [chunkAux, ih]
    | succ k => simp [chunkAux, ih]

/-- C4: running the cloud masker batch by batch equals mapping the per-scene
detector over the scenes, for every batch size: the mask of each scene is a
pure function of that scene's stack, and two batch partitionings of the same
scene list yield identical per-scene masks. -/
theorem masking_independent_of_batching (f : Scene → List Bool) (n₁ n₂ : Nat)
    (scenes : List Scene) :
    maskBatched f n₁ scenes = scenes.map f ∧
      maskBatched f n₁ scenes = maskBatched f n₂ scenes := by
  have key : ∀ n : Nat, maskBatched f n scenes = scenes.map f := by
    intro n
    unfold maskBatched chunkList
    rw [← List.map_flatten, chunkAux_flatten]
    simp
  exact ⟨key n₁, (key n₁).trans (key n₂).symm⟩

/-! ## Coordinator lemmas (claims C5, C6, C7, C9, C10) -/

lemma export_args_eq (cfg : MosaicConfig) (env : Env) (bands : List String)
    (nodata : Option Int) (arr : List ℚ)
    (h : (mosaic cfg env).1 = Except.ok (MosaicResult.exportedFile bands nodata arr)) :
    bands = exportBands cfg.required_bands ∧ nodata = exportNodata cfg.required_bands := by
  simp only [mosaic] at h
  split at h
  · split at h
    · simp at h
    · split at h
      · simp at h
      · split at h
        · simp only [Except.ok.injEq, MosaicResult.exportedFile.injEq] at h
          exact ⟨h.1.symm, h.2.1.symm⟩
        · simp at h
  · simp at h

/-- C7: an invalid configuration (unsupported sort or mosaic method, malformed
band list, out-of-range threshold) makes the coordinator fail with a
configuration error while the recorded pipeline trace is empty: no scene
search or fetch has begun. -/
theorem invalid_config_fails_fast (cfg : MosaicConfig) (env : Env)
    (h : validate_inputs cfg.sort_method cfg.mosaic_method cfg.no_data_threshold
      cfg.required_bands = false) :
    (mosaic cfg env).1 = Except.error MosaicError.configuration ∧ (mosaic cfg env).2 = [] := by
  simp [mosaic, h]

theorem invalid_config_fails_fast_witness :
    validate_inputs cfgInvalid.sort_method cfgInvalid.mosaic_method cfgInvalid.no_data_threshold
      cfgInvalid.required_bands = false ∧
    (mosaic cfgInvalid envNoScenes).1 = Except.error MosaicError.configuration ∧
    (mosaic cfgInvalid envNoScenes).2 = [] :=
  ⟨by decide, invalid_config_fails_fast cfgInvalid envNoScenes (by decide)⟩

/-- C6: when the configuration is valid, the existing-output early return does
not trigger, and the catalog search returns zero scenes, the coordinator fails
with the no-candidates error having performed only the search: no fetch,
masking or compositing work appears in the trace. -/
theorem no_candidates_fails (cfg : MosaicConfig) (env : Env)
    (hval : validate_inputs cfg.sort_method cfg.mosaic_method cfg.no_data_threshold
      cfg.required_bands = true)
    (hskip : (cfg.output_dir && env.export_path_exists && !cfg.overwrite) = false)
    (hempty : env.items = []) :
    (mosaic cfg env).1 = Except.error MosaicError.noCandidates ∧
    (mosaic cfg env).2 = [PipelineStep.search] ∧
    PipelineStep.fetch ∉ (mosaic cfg env).2 ∧
    PipelineStep.mask ∉ (mosaic cfg env).2 ∧
    PipelineStep.composite ∉ (mosaic cfg env).2 := by
  simp [mosaic, hval, hskip, hempty]

theorem no_candidates_fails_witness :
    (validate_inputs cfgInMemory.sort_method cfgInMemory.mosaic_method
        cfgInMemory.no_data_threshold cfgInMemory.required_bands = true ∧
      (cfgInMemory.output_dir && envNoScenes.export_path_exists && !cfgInMemory.overwrite)
        = false ∧
      envNoScenes.items = []) ∧
    ((mosaic cfgInMemory envNoScenes).1 = Except.error MosaicError.noCandidates ∧
      (mosaic cfgInMemory envNoScenes).2 = [PipelineStep.search] ∧
      PipelineStep.fetch ∉ (mosaic cfgInMemory envNoScenes).2 ∧
      PipelineStep.mask ∉ (mosaic cfgInMemory envNoScenes).2 ∧
      PipelineStep.composite ∉ (mosaic cfgInMemory envNoScenes).2) :=
  ⟨⟨by decide, by decide, by decide⟩,
    no_candidates_fails cfgInMemory envNoScenes (by decide) (by decide) (by decide)⟩

/-- C9 counterexample: with an unsupported sort method, an output directory,
an existing export path and `overwrite = false`, the coordinator raises the
configuration error instead of returning the existing path — input validation
runs before the overwrite policy is evaluated. -/
theorem overwrite_skip_counterexample :
    (mosaic cfgBadNoOverwrite envPathExists).1 = Except.error MosaicError.configuration ∧
    (mosaic cfgBadNoOverwrite envPathExists).1 ≠ Except.ok MosaicResult.existingPath := by
  have h : (mosaic cfgBadNoOverwrite envPathExists).1
      = Except.error MosaicError.configuration := rfl
  refine ⟨h, ?_⟩
  rw [h]
  simp

/-- C9 (amended): for a call with a valid configuration, an output directory,
an existing export path and `overwrite = false`, the coordinator returns the
existing path with an empty pipeline trace: no scene search, fetch, masking or
compositing is performed. -/
theorem overwrite_skip_amended (cfg : MosaicConfig) (env : Env)
    (hval : validate_inputs cfg.sort_method cfg.mosaic_method cfg.no_data_threshold
      cfg.required_bands = true)
    (hdir : cfg.output_dir = true) (hex : env.export_path_exists = true)
    (hov : cfg.overwrite = false) :
    mosaic cfg env = (Except.ok MosaicResult.existingPath, []) := by
  simp [mosaic, hval, hdir, hex, hov]

theorem overwrite_skip_amended_witness :
    (validate_inputs cfgNoOverwrite.sort_method cfgNoOverwrite.mosaic_method
        cfgNoOverwrite.no_data_threshold cfgNoOverwrite.required_bands = true ∧
      cfgNoOverwrite.output_dir = true ∧ envPathExists.export_path_exists = true ∧
      cfgNoOverwrite.overwrite = false) ∧
    mosaic cfgNoOverwrite envPathExists = (Except.ok MosaicResult.existingPath, []) :=
  ⟨⟨by decide, by decide, by decide, by decide⟩,
    overwrite_skip_amended cfgNoOverwrite envPathExists (by decide) (by decide) (by decide)
      (by decide)⟩

/-- C5: whenever the coordinator reaches the raster export, the band labels it
passes are exactly Red, Green, Blue with the nodata sentinel disabled if
`required_bands` contains the visual composite band, and a nodata sentinel is
present otherwise. -/
theorem visual_band_export (cfg : MosaicConfig) (env : Env) (bands : List String)
    (nodata : Option Int) (arr : List ℚ)
    (h : (mosaic cfg env).1 = Except.ok (MosaicResult.exportedFile bands nodata arr)) :
    ("visual" ∈ cfg.required_bands → bands = ["Red", "Green", "Blue"] ∧ nodata = none) ∧
    ("visual" ∉ cfg.required_bands → nodata ≠ none) := by
  obtain ⟨hb, hn⟩ := export_args_eq cfg env bands nodata arr h
  subst hb hn
  by_cases hm : "visual" ∈ cfg.required_bands <;>
    simp [exportBands, exportNodata, hm]

unseal List.merge List.mergeSort in
theorem visual_band_export_witness :
    (mosaic cfgVisual envOneScene).1 =
      Except.ok (MosaicResult.exportedFile ["Red", "Green", "Blue"] none [(5 : ℚ)]) ∧
    (["Red", "Green", "Blue"] = ["Red", "Green", "Blue"] ∧ (none : Option Int) = none) := by
  have h : (mosaic cfgVisual envOneScene).1 =
      Except.ok (MosaicResult.exportedFile ["Red", "Green", "Blue"] none [(5 : ℚ)]) := rfl
  exact ⟨h, (visual_band_export cfgVisual envOneScene _ _ _ h).1 (by decide)⟩

/-- C10: whenever `required_bands` does not contain the visual composite band
and the coordinator reaches the raster export, the nodata sentinel it passes
is exactly the integer 0, whatever bands were requested. -/
theorem nonvisual_nodata_zero (cfg : MosaicConfig) (env : Env) (bands : List String)
    (nodata : Option Int) (arr : List ℚ)
    (hviz : "visual" ∉ cfg.required_bands)
    (h : (mosaic cfg env).1 = Except.ok (MosaicResult.exportedFile bands nodata arr)) :
    nodata = some 0 := by
  obtain ⟨-, hn⟩ := export_args_eq cfg env bands nodata arr h
  simp [hn, exportNodata, hviz]

unseal List.merge List.mergeSort in
theorem nonvisual_nodata_zero_witness :
    ("visual" ∉ cfgBands.required_bands ∧
      (mosaic cfgBands envOtherScene).1 =
        Except.ok (MosaicResult.exportedFile ["B08"] (some 0) [(7 : ℚ)])) ∧
    (some 0 : Option Int) = some 0 := by
  have h : (mosaic cfgBands envOtherScene).1 =
      Except.ok (MosaicResult.exportedFile ["B08"] (some 0) [(7 : ℚ)]) := rfl
  exact ⟨⟨by decide, h⟩, nonvisual_nodata_zero cfgBands envOtherScene _ _ _ (by decide) h⟩

/-! ## `first` compositing lemmas (claims C1, C2) -/

lemma orElse_assoc (x y z : Option Int) : ((x <|> y) <|> z) = (x <|> (y <|> z)) := by
  cases x <;> rfl

lemma firstValidAt_cons (s : Scene) (rest : List Scene) (j : Nat) :
    firstValidAt (s :: rest) j = (sceneOptAt s j <|> firstValidAt rest j) := by
  unfold firstValidAt
  rw [List.findSome?_cons]
  cases sceneOptAt s j <;> simp

lemma length_updateFirst (acc : List (Option Int)) (s : Scene) :
    (updateFirst acc s).length = acc.length ⊓ s.length :=
  List.length_zipWith _ _ _

lemma getD_updateFirst (acc : List (Option Int)) (s : Scene) (j : Nat)
    (hj : j < acc.length) (hjs : j < s.length) :
    (updateFirst acc s).getD j none = ((acc.getD j none) <|> sceneOptAt s j) := by
  have hlen : j < (updateFirst acc s).length := by
    rw [length_updateFirst]; exact lt_min hj hjs
  rw [List.getD_eq_getElem _ _ hlen, List.getD_eq_getElem _ _ hj]
  simp only [updateFirst, List.getElem_zipWith, sceneOptAt]
  rw [List.getD_eq_getElem _ _ hjs]

lemma foldl_updateFirst_getD (scenes : List Scene) :
    ∀ (acc : List (Option Int)), (∀ s ∈ scenes, s.length = acc.length) → ∀ (j : Nat),
      j < acc.length →
      (scenes.foldl updateFirst acc).getD j none = ((acc.getD j none) <|> firstValidAt scenes j) := by
  induction scenes with
  | nil =>
    intro acc _ j _
    simp [firstValidAt]
  | cons s rest ih =>
    intro acc hlen j hj
    have hsl : s.length = acc.length := hlen s (List.mem_cons_self s rest)
    have hacc2 : (updateFirst acc s).length = acc.length := by
      rw [length_updateFirst, hsl]; exact Nat.min_self _
    have hrest : ∀ u ∈ rest, u.length = (updateFirst acc s).length := by
      intro u hu; rw [hacc2]; exact hlen u (List.mem_cons_of_mem s hu)
    have step := ih (updateFirst acc s) hrest j (by rw [hacc2]; exact hj)
    calc ((s :: rest).foldl updateFirst acc).getD j none
        = (rest.foldl updateFirst (updateFirst acc s)).getD j none := rfl
      _ = ((updateFirst acc s).getD j none <|> firstValidAt rest j) := step
      _ = ((acc.getD j none <|> sceneOptAt s j) <|> firstValidAt rest j) := by
          rw [getD_updateFirst acc s j hj (by rw [hsl]; exact hj)]
      _ = (acc.getD j none <|> (sceneOptAt s j <|> firstValidAt rest j)) := orElse_assoc _ _ _
      _ = (acc.getD j none <|> firstValidAt (s :: rest) j) := by
          rw [firstValidAt_cons]

lemma length_foldl_updateFirst (scenes : List Scene) :
    ∀ (acc : List (Option Int)), (∀ s ∈ scenes, s.length = acc.length) →
      (scenes.foldl updateFirst acc).length = acc.length := by
  induction scenes with
  | nil => intro acc _; rfl
  | cons s rest ih =>
    intro acc hlen
    have hsl : s.length = acc.length := hlen s (List.mem_cons_self s rest)
    have hacc2 : (updateFirst acc s).length = acc.length := by
      rw [length_updateFirst, hsl]; exact Nat.min_self _
    have := ih (updateFirst acc s) (by intro u hu; rw [hacc2]; exact hlen u (List.mem_cons_of_mem s hu))
    rw [List.foldl_cons, this, hacc2]

/-- C2: under the `first` method (with the early-exit disabled, every scene
folded), every position of the output equals the value of the first scene in
processing order whose mask marks it valid, with the nodata sentinel when no
scene is valid there; and a finalized accumulator position is never changed by
folding any later scenes. -/
theorem first_takes_first_valid :
    (∀ (w : Nat) (scenes : List Scene), (∀ s ∈ scenes, s.length = w) → ∀ j < w,
      (compositeFirstPlain w scenes).getD j nodataQ = (((firstValidAt scenes j).getD 0 : Int) : ℚ)) ∧
    (∀ (acc : List (Option Int)) (later : List Scene) (j : Nat) (v : Int),
      (∀ s ∈ later, s.length = acc.length) → acc.getD j none = some v →
      (later.foldl updateFirst acc).getD j none = some v) := by
  constructor
  · intro w scenes hlen j hj
    have hrep : ∀ s ∈ scenes, s.length = (List.replicate w (none : Option Int)).length := by
      intro s hs; rw [List.length_replicate]; exact hlen s hs
    have hjrep : j < (List.replicate w (none : Option Int)).length := by
      rw [List.length_replicate]; exact hj
    have hfold := foldl_updateFirst_getD scenes (List.replicate w none) hrep j hjrep
    have hflen : (scenes.foldl updateFirst (List.replicate w (none : Option Int))).length = w := by
      rw [length_foldl_updateFirst scenes _ hrep, List.length_replicate]
    have hrepD : (List.replicate w (none : Option Int)).getD j none = none := by
      rw [List.getD_eq_getElem _ _ hjrep, List.getElem_replicate]
    rw [hrepD, Option.none_orElse] at hfold
    have hjf : j < (scenes.foldl updateFirst (List.replicate w (none : Option Int))).length := by
      rw [hflen]; exact hj
    unfold compositeFirstPlain finalizeFirst
    rw [List.getD_eq_getElem _ _ (by simpa using hjf), List.getElem_map,
      ← List.getD_eq_getElem _ (none : Option Int) hjf, hfold]
  · intro acc later j v hlen hv
    have hj : j < acc.length := by
      by_contra hge
      rw [List.getD_eq_default] at hv
      · exact Option.noConfusion hv
      · omega
    rw [foldl_updateFirst_getD later acc (fun s hs => hlen s hs) j hj, hv, Option.some_orElse]

theorem first_takes_first_valid_witness :
    ((∀ s ∈ [[((2 : Int), true)], [((4 : Int), true)]], List.length s = 1) ∧ 0 < 1) ∧
    (compositeFirstPlain 1 [[((2 : Int), true)], [((4 : Int), true)]]).getD 0 nodataQ =
      (((firstValidAt [[((2 : Int), true)], [((4 : Int), true)]] 0).getD 0 : Int) : ℚ) :=
  ⟨⟨by decide, by decide⟩,
    first_takes_first_valid.1 1 [[((2 : Int), true)], [((4 : Int), true)]] (by decide) 0 (by decide)⟩

/-! ## `mean` compositing lemmas (claims C1, C3) -/

lemma updateMean_comm (acc : List (Int × Nat)) (s t : Scene) :
    updateMean (updateMean acc s) t = updateMean (updateMean acc t) s := by
  apply List.ext_getElem?
  intro j
  simp only [updateMean, List.getElem?_zipWith]
  cases acc[j]? with
  | none => cases s[j]? <;> cases t[j]? <;> rfl
  | some a =>
    cases s[j]? with
    | none => cases t[j]? <;> rfl
    | some p =>
      cases t[j]? with
      | none => rfl
      | some q =>
        by_cases hp : p.2 <;> by_cases hq : q.2 <;>
          simp [hp, hq, Prod.ext_iff, Int.add_right_comm]

lemma length_updateMean (acc : List (Int × Nat)) (s : Scene) :
    (updateMean acc s).length = acc.length ⊓ s.length :=
  List.length_zipWith _ _ _

lemma getD_updateMean (acc : List (Int × Nat)) (s : Scene) (j : Nat)
    (hj : j < acc.length) (hjs : j < s.length) :
    (updateMean acc s).getD j (0, 0) =
      (match sceneOptAt s j with
        | some v => ((acc.getD j (0, 0)).1 + v, (acc.getD j (0, 0)).2 + 1)
        | none => acc.getD j (0, 0)) := by
  have hlen : j < (updateMean acc s).length := by
    rw [length_updateMean]; exact lt_min hj hjs
  rw [List.getD_eq_getElem _ _ hlen, List.getD_eq_getElem _ _ hj]
  simp only [updateMean, List.getElem_zipWith, sceneOptAt]
  rw [List.getD_eq_getElem _ _ hjs]
  by_cases hb : (s[j]).2 <;> simp [hb]

lemma contributions_cons (s : Scene) (rest : List Scene) (j : Nat) :
    contributions (s :: rest) j =
      (match sceneOptAt s j with
        | some v => v :: contributions rest j
        | none => contributions rest j) := by
  unfold contributions
  rw [List.filterMap_cons]
  cases sceneOptAt s j <;> simp

lemma foldl_updateMean_getD (scenes : List Scene) :
    ∀ (acc : List (Int × Nat)), (∀ s ∈ scenes, s.length = acc.length) → ∀ (j : Nat),
      j < acc.length →
      (scenes.foldl updateMean acc).getD j (0, 0) =
        ((acc.getD j (0, 0)).1 + (contributions scenes j).sum,
          (acc.getD j (0, 0)).2 + (contributions scenes j).length) := by
  induction scenes with
  | nil =>
    intro acc _ j _
    simp [contributions]
  | cons s rest ih =>
    intro acc hlen j hj
    have hsl : s.length = acc.length := hlen s (List.mem_cons_self s rest)
    have hacc2 : (updateMean acc s).length = acc.length := by
      rw [length_updateMean, hsl]; exact Nat.min_self _
    have hrest : ∀ u ∈ rest, u.length = (updateMean acc s).length := by
      intro u hu; rw [hacc2]; exact hlen u (List.mem_cons_of_mem s hu)
    have step := ih (updateMean acc s) hrest j (by rw [hacc2]; exact hj)
    have hupd := getD_updateMean acc s j hj (by rw [hsl]; exact hj)
    rw [List.foldl_cons, step, hupd, contributions_cons]
    cases sceneOptAt s j with
    | none => rfl
    | some v =>
      simp only [List.sum_cons, List.length_cons, Prod.mk.injEq]
      constructor <;> omega

lemma length_foldl_updateMean (scenes : List Scene) :
    ∀ (acc : List (Int × Nat)), (∀ s ∈ scenes, s.length = acc.length) →
      (scenes.foldl updateMean acc).length = acc.length := by
  induction scenes with
  | nil => intro acc _; rfl
  | cons s rest ih =>
    intro acc hlen
    have hsl : s.length = acc.length := hlen s (List.mem_cons_self s rest)
    have hacc2 : (updateMean acc s).length = acc.length := by
      rw [length_updateMean, hsl]; exact Nat.min_self _
    have := ih (updateMean acc s)
      (by intro u hu; rw [hacc2]; exact hlen u (List.mem_cons_of_mem s hu))
    rw [List.foldl_cons, this, hacc2]

/-- C3: `mean` compositing (with the early-exit disabled, every scene folded)
is invariant under permutation of the scene list — the fold of two
permutations of the same masked stacks is numerically identical — and a
position with zero contributing scenes receives the nodata sentinel. -/
theorem mean_order_invariant :
    (∀ (w : Nat) (scenes₁ scenes₂ : List Scene), scenes₁.Perm scenes₂ →
      compositeMeanPlain w scenes₁ = compositeMeanPlain w scenes₂) ∧
    (∀ (w : Nat) (scenes : List Scene), (∀ s ∈ scenes, s.length = w) → ∀ j < w,
      contributions scenes j = [] →
      (compositeMeanPlain w scenes).getD j nodataQ = nodataQ) := by
  constructor
  · intro w scenes₁ scenes₂ hperm
    haveI : RightCommutative updateMean := ⟨updateMean_comm⟩
    unfold compositeMeanPlain
    rw [hperm.foldl_eq]
  · intro w scenes hlen j hj hcontrib
    have hrep : ∀ s ∈ scenes, s.length = (List.replicate w ((0 : Int), (0 : Nat))).length := by
      intro s hs; rw [List.length_replicate]; exact hlen s hs
    have hjrep : j < (List.replicate w ((0 : Int), (0 : Nat))).length := by
      rw [List.length_replicate]; exact hj
    have hfold := foldl_updateMean_getD scenes (List.replicate w (0, 0)) hrep j hjrep
    have hrepD : (List.replicate w ((0 : Int), (0 : Nat))).getD j (0, 0) = (0, 0) := by
      rw [List.getD_eq_getElem _ _ hjrep, List.getElem_replicate]
    rw [hrepD, hcontrib] at hfold
    simp only [List.sum_nil, List.length_nil, Nat.add_zero, Int.add_zero] at hfold
    have hjf : j < (scenes.foldl updateMean (List.replicate w ((0 : Int), (0 : Nat)))).length := by
      rw [length_foldl_updateMean scenes _ hrep, List.length_replicate]; exact hj
    unfold compositeMeanPlain finalizeMean
    rw [List.getD_eq_getElem _ _ (by simpa using hjf), List.getElem_map,
      ← List.getD_eq_getElem _ ((0 : Int), (0 : Nat)) hjf, hfold]
    simp

theorem mean_order_invariant_witness :
    ([[((1 : Int), true)], [((3 : Int), true)]] : List Scene).Perm
        [[((3 : Int), true)], [((1 : Int), true)]] ∧
    compositeMeanPlain 1 [[((1 : Int), true)], [((3 : Int), true)]] =
      compositeMeanPlain 1 [[((3 : Int), true)], [((1 : Int), true)]] :=
  ⟨by decide,
    mean_order_invariant.1 1 [[((1 : Int), true)], [((3 : Int), true)]]
      [[((3 : Int), true)], [((1 : Int), true)]] (by decide)⟩

/-! ## Early-exit lemmas (claim C1) -/

lemma updateFirst_of_all_isSome (acc : List (Option Int)) (s : Scene)
    (hall : ∀ o ∈ acc, o.isSome) (hlen : acc.length ≤ s.length) :
    updateFirst acc s = acc := by
  apply List.ext_getElem?
  intro j
  simp only [updateFirst, List.getElem?_zipWith]
  cases hacc : acc[j]? with
  | none => cases s[j]? <;> rfl
  | some a =>
    obtain ⟨hj, rfl⟩ := List.getElem?_eq_some.mp hacc
    have hjs : j < s.length := lt_of_lt_of_le hj hlen
    rw [List.getElem?_eq_getElem hjs]
    have hmem : acc[j] ∈ acc := List.getElem_mem hj
    obtain ⟨v, hv⟩ := Option.isSome_iff_exists.mp (hall _ hmem)
    rw [hv]
    rfl

lemma foldl_updateFirst_of_all_isSome (scenes : List Scene) :
    ∀ (acc : List (Option Int)), (∀ o ∈ acc, o.isSome) →
      (∀ s ∈ scenes, acc.length ≤ s.length) →
      scenes.foldl updateFirst acc = acc := by
  induction scenes with
  | nil => intro acc _ _; rfl
  | cons s rest ih =>
    intro acc hall hlen
    have hfix : updateFirst acc s = acc :=
      updateFirst_of_all_isSome acc s hall (hlen s (List.mem_cons_self s rest))
    rw [List.foldl_cons, hfix,
      ih acc hall (fun u hu => hlen u (List.mem_cons_of_mem s hu))]

lemma all_isSome_of_invalidFracFirst_nonpos (acc : List (Option Int))
    (h : invalidFracFirst acc ≤ 0) : ∀ o ∈ acc, o.isSome := by
  rcases Nat.eq_zero_or_pos acc.length with h0 | hpos
  · intro o ho
    rw [List.length_eq_zero.mp h0] at ho
    exact absurd ho (List.not_mem_nil o)
  · unfold invalidFracFirst at h
    rw [if_neg (Nat.pos_iff_ne_zero.mp hpos)] at h
    have hlq : (0 : ℚ) < (acc.length : ℚ) := by exact_mod_cast hpos
    rw [div_le_iff₀ hlq, zero_mul] at h
    have hcount : acc.countP (fun o => o.isNone) = 0 := by exact_mod_cast le_antisymm h (by positivity)
    intro o ho
    have hno := List.countP_eq_zero.mp hcount o ho
    cases o with
    | none => simp at hno
    | some v => rfl

lemma goFirst_zero_eq_foldl (scenes : List Scene) :
    ∀ (acc : List (Option Int)), (∀ s ∈ scenes, s.length = acc.length) →
      goFirst (some 0) acc scenes = scenes.foldl updateFirst acc := by
  induction scenes with
  | nil => intro acc _; rfl
  | cons s rest ih =>
    intro acc hlen
    have hsl : s.length = acc.length := hlen s (List.mem_cons_self s rest)
    have hacc2 : (updateFirst acc s).length = acc.length := by
      rw [length_updateFirst, hsl]; exact Nat.min_self _
    have hrest : ∀ u ∈ rest, u.length = (updateFirst acc s).length := by
      intro u hu; rw [hacc2]; exact hlen u (List.mem_cons_of_mem s hu)
    show (if invalidFracFirst (updateFirst acc s) ≤ 0 then updateFirst acc s
      else goFirst (some 0) (updateFirst acc s) rest) = (s :: rest).foldl updateFirst acc
    rw [List.foldl_cons]
    by_cases hexit : invalidFracFirst (updateFirst acc s) ≤ 0
    · rw [if_pos hexit]
      exact (foldl_updateFirst_of_all_isSome rest (updateFirst acc s)
        (all_isSome_of_invalidFracFirst_nonpos _ hexit)
        (fun u hu => le_of_eq (hrest u hu).symm)).symm
    · rw [if_neg hexit]
      exact ih (updateFirst acc s) hrest

/-- C1 counterexample: with `no_data_threshold = 0` and the `mean` method, the
early-exit fold stops after the first fully valid scene, so its output (the
first scene's values) differs from the fold over every scene (the mean of
both): the claimed equivalence fails for a valid configuration. -/
theorem early_exit_zero_counterexample :
    compositeMeanEE (some 0) 1 [[((2 : Int), true)], [((4 : Int), true)]] ≠
      compositeMeanPlain 1 [[((2 : Int), true)], [((4 : Int), true)]] := by
  have h1 : compositeMeanEE (some 0) 1 [[((2 : Int), true)], [((4 : Int), true)]] = [(2 : ℚ)] := by
    norm_num [compositeMeanEE, goMean, updateMean, invalidFracMean, finalizeMean, nodataQ,
      List.countP_cons, List.countP_nil]
  have h2 : compositeMeanPlain 1 [[((2 : Int), true)], [((4 : Int), true)]] = [(3 : ℚ)] := by
    norm_num [compositeMeanPlain, updateMean, finalizeMean, nodataQ]
  rw [h1, h2]
  intro h
  exact absurd (List.cons.injEq .. ▸ h) (by norm_num)

/-- C1 (amended): with `no_data_threshold = 0` the early exit triggers only
once every accumulator position is finalized, so under the `first` method the
early-exit fold produces output identical to folding in every scene; under the
`mean` method the two can differ (see the counterexample). -/
theorem early_exit_zero_equiv_first (w : Nat) (scenes : List Scene)
    (hs : ∀ s ∈ scenes, s.length = w) :
    compositeFirstEE (some 0) w scenes = compositeFirstPlain w scenes := by
  unfold compositeFirstEE compositeFirstPlain
  rw [goFirst_zero_eq_foldl scenes (List.replicate w none)
    (by intro s hsm; rw [List.length_replicate]; exact hs s hsm)]

theorem early_exit_zero_equiv_first_witness :
    (∀ s ∈ [[((2 : Int), true)], [((4 : Int), true)]], List.length s = 1) ∧
    compositeFirstEE (some 0) 1 [[((2 : Int), true)], [((4 : Int), true)]] =
      compositeFirstPlain 1 [[((2 : Int), true)], [((4 : Int), true)]] :=
  ⟨by decide,
    early_exit_zero_equiv_first 1 [[((2 : Int), true)], [((4 : Int), true)]] (by decide)⟩

/-! ## Sorting lemmas (claim C8) -/

lemma sceneLE_trans (p : String) (a b c : SceneItem) :
    sceneLE p a b = true → sceneLE p b c = true → sceneLE p a c = true := by
  simp only [sceneLE, Bool.or_eq_true, Bool.and_eq_true, decide_eq_true_eq]
  rintro (hab | ⟨hab, hi1⟩) (hbc | ⟨hbc, hi2⟩)
  · exact Or.inl (lt_trans hab hbc)
  · exact Or.inl (hbc ▸ hab)
  · exact Or.inl (hab ▸ hbc)
  · exact Or.inr ⟨hab.trans hbc, le_trans hi1 hi2⟩

lemma sceneLE_total (p : String) (a b : SceneItem) :
    (sceneLE p a b || sceneLE p b a) = true := by
  simp only [sceneLE, Bool.or_eq_true, Bool.and_eq_true, decide_eq_true_eq]
  rcases lt_trichotomy (primaryKey p a) (primaryKey p b) with h | h | h
  · exact Or.inl (Or.inl h)
  · rcases le_total a.sceneId b.sceneId with hle | hle
    · exact Or.inl (Or.inr ⟨h, hle⟩)
    · exact Or.inr (Or.inr ⟨h.symm, hle⟩)
  · exact Or.inr (Or.inl h)

lemma sceneLE_antisymm_ids (p : String) (a b : SceneItem) :
    sceneLE p a b = true → sceneLE p b a = true → a.sceneId = b.sceneId := by
  simp only [sceneLE, Bool.or_eq_true, Bool.and_eq_true, decide_eq_true_eq]
  rintro (h1 | ⟨he1, hi1⟩) (h2 | ⟨he2, hi2⟩)
  · exact absurd h2 (lt_asymm h1)
  · exact absurd h1 (he2 ▸ lt_irrefl _)
  · exact absurd h2 (he1 ▸ lt_irrefl _)
  · exact le_antisymm hi1 hi2

lemma sorted_perm_eq_of_antisymm {α : Type} (le : α → α → Bool) :
    ∀ (l₁ l₂ : List α), l₁.Perm l₂ →
      (∀ a ∈ l₁, ∀ b ∈ l₁, le a b = true → le b a = true → a = b) →
      l₁.Pairwise (fun a b => le a b = true) →
      l₂.Pairwise (fun a b => le a b = true) → l₁ = l₂ := by
  intro l₁
  induction l₁ with
  | nil =>
    intro l₂ hperm _ _ _
    exact (hperm.nil_eq).symm.symm
  | cons a t₁ ih =>
    intro l₂ hperm hanti hs₁ hs₂
    cases l₂ with
    | nil =>
      have := hperm.eq_nil
      exact absurd this (by simp)
    | cons b t₂ =>
      have hab : a = b := by
        by_contra hne
        have haz : a ∈ b :: t₂ := hperm.subset (List.mem_cons_self a t₁)
        have hbz : b ∈ a :: t₁ := hperm.symm.subset (List.mem_cons_self b t₂)
        have ha2 : a ∈ t₂ := by
          rcases List.mem_cons.mp haz with h | h
          · exact absurd h hne
          · exact h
        have hb1 : b ∈ t₁ := by
          rcases List.mem_cons.mp hbz with h | h
          · exact absurd h.symm hne
          · exact h
        have h1 : le a b = true := List.rel_of_pairwise_cons hs₁ hb1
        have h2 : le b a = true := List.rel_of_pairwise_cons hs₂ ha2
        exact hne (hanti a (List.mem_cons_self a t₁) b (List.mem_cons.mpr (Or.inr hb1)) h1 h2)
      subst hab
      have htail : t₁.Perm t₂ := hperm.cons_inv
      have heq : t₁ = t₂ :=
        ih t₂ htail
          (fun x hx y hy => hanti x (List.mem_cons_of_mem a hx) y (List.mem_cons_of_mem a hy))
          hs₁.of_cons hs₂.of_cons
      rw [heq]

/-- C8: for every supported sort policy, the scene comparator is a total
transitive relation whose ties are broken by the scene identifier, so the sort
returns a permutation of its input, sorted under the comparator — and for
scene lists with distinct identifiers the sorted order is uniquely determined:
sorting any permutation of the input produces the identical output list. -/
theorem sort_items_total_order (p : String) (l₁ l₂ : List SceneItem)
    (_hp : p ∈ sortPolicies)
    (hids : (l₁.map SceneItem.sceneId).Nodup)
    (hperm : l₁.Perm l₂) :
    (sort_items p l₁).Perm l₁ ∧
    (sort_items p l₁).Pairwise (fun a b => sceneLE p a b = true) ∧
    sort_items p l₁ = sort_items p l₂ := by
  have hperm₁ : (sort_items p l₁).Perm l₁ := List.mergeSort_perm l₁ (sceneLE p)
  have hperm₂ : (sort_items p l₂).Perm l₂ := List.mergeSort_perm l₂ (sceneLE p)
  have hs₁ : (sort_items p l₁).Pairwise (fun a b => sceneLE p a b = true) :=
    List.sorted_mergeSort (sceneLE_trans p) (sceneLE_total p) l₁
  have hs₂ : (sort_items p l₂).Pairwise (fun a b => sceneLE p a b = true) :=
    List.sorted_mergeSort (sceneLE_trans p) (sceneLE_total p) l₂
  have hp12 : (sort_items p l₁).Perm (sort_items p l₂) :=
    hperm₁.trans (hperm.trans hperm₂.symm)
  have hanti : ∀ a ∈ sort_items p l₁, ∀ b ∈ sort_items p l₁,
      sceneLE p a b = true → sceneLE p b a = true → a = b := by
    intro a ha b hb h1 h2
    exact List.inj_on_of_nodup_map hids (hperm₁.subset ha) (hperm₁.subset hb)
      (sceneLE_antisymm_ids p a b h1 h2)
  exact ⟨hperm₁, hs₁,
    sorted_perm_eq_of_antisymm (sceneLE p) (sort_items p l₁) (sort_items p l₂) hp12 hanti hs₁ hs₂⟩

theorem sort_items_total_order_witness :
    ("oldest" ∈ sortPolicies ∧
      (([itemS1, itemS0].map SceneItem.sceneId).Nodup) ∧
      ([itemS1, itemS0] : List SceneItem).Perm [itemS0, itemS1]) ∧
    ((sort_items "oldest" [itemS1, itemS0]).Perm [itemS1, itemS0] ∧
      (sort_items "oldest" [itemS1, itemS0]).Pairwise
        (fun a b => sceneLE "oldest" a b = true) ∧
      sort_items "oldest" [itemS1, itemS0] = sort_items "oldest" [itemS0, itemS1]) :=
  ⟨⟨by decide, by decide, by decide⟩,
    sort_items_total_order "oldest" [itemS1, itemS0] [itemS0, itemS1]
      (by decide) (by decide) (by decide)⟩
